import Mathlib

/-!
Shallow embedding of `src/cnocr/trainer.py` and verification of its
specification's claims.

The module's original logic is embedded as executable Lean definitions:
the optimizer factory `get_optimizer`, the learning-rate schedule factory
`get_lr_scheduler`, the two accuracy metrics `Accuracy.complete_match` and
`Accuracy.label_match`, the checkpoint re-save `resave_model`, and the
post-run path derivation performed at the end of `PlTrainer.fit`.

Modelling conventions:
* Python floats are modelled as rationals (`ℚ`); the metric epsilon `1e-6`
  is the rational `1/1000000`.
* A Python `dict` subscript that can raise `KeyError`, and the list
  subscript `[1]` that can raise `IndexError`, are modelled with `Except`;
  a key that may be absent or bound to `None` is an `Option (Option _)`
  field (outer `none` = key absent, `some none` = value `None`).
* Python strings used as `state_dict` keys / file paths are `List Char`,
  so `split` / `rsplit` are plain structural recursion.
* A fatal `assert` is modelled by returning `none` (`Option ℚ`).
-/

namespace CnocrTrainer

/-! ## Optimizer factory (`get_optimizer`, trainer.py lines 26-50) -/

/-- The update rules named in the `OPTIMIZERS` table of `get_optimizer`. -/
inductive OptimizerKind where
  | adam
  | adamw
  | sgd
  | adagrad
  | rmsprop
deriving DecidableEq, Repr

/-- What `get_optimizer` produces: the selected update rule, and whether the
fallback warning was logged on the way. -/
structure OptResult where
  kind : OptimizerKind
  warned : Bool
deriving DecidableEq, Repr

/-- The `OPTIMIZERS` lookup table of `get_optimizer`. -/
def OPTIMIZERS : List (String × OptimizerKind) :=
  [("adam", .adam), ("adamw", .adamw), ("sgd", .sgd),
   ("adagrad", .adagrad), ("rmsprop", .rmsprop)]

/-- Python `str.lower()` (character-wise, as used on ASCII optimizer names). -/
def pyLower (s : String) : String :=
  ⟨s.data.map Char.toLower⟩

/-- `get_optimizer`: looks up `name.lower()` in `OPTIMIZERS`; on a failed
lookup it logs a warning and substitutes `optim.Adam`. -/
def get_optimizer (name : String) : OptResult :=
  match OPTIMIZERS.lookup (pyLower name) with
  | some kind => ⟨kind, false⟩
  | none => ⟨.adam, true⟩

/-! ## Learning-rate schedule factory (`get_lr_scheduler`, lines 53-77) -/

/-- The `lr_lambda` literally passed to `LambdaLR` in the fallback branch:
`lambda _: 1`. -/
def noopLrLambda : ℕ → ℚ := fun _ => 1

/-- The schedule objects `get_lr_scheduler` can construct, with the
constructor arguments the source passes. -/
inductive Scheduler where
  | multiStepLR (milestones : List ℕ) (gamma : ℚ)
  | cosineAnnealingWarmRestarts (T0 Tmult : ℕ) (etaMin : ℚ)
  | cyclicLR (baseLr maxLr : ℚ) (stepSizeUp : ℕ) (cycleMomentum : Bool)
  | lambdaLR (lrLambda : ℕ → ℚ)
  | stepLR (stepSize : ℤ) (gamma : ℚ)

/-- The slice of the configuration mapping `get_lr_scheduler` reads:
`config['learning_rate']`, `config['lr_scheduler']['name']`,
`config['lr_scheduler']['step_size']` and the top-level `config['gamma']`.
For the last two, the outer `Option` is key presence and the inner `Option`
is a present key bound to Python `None`. -/
structure Config where
  learning_rate : ℚ
  name : String
  step_size : Option (Option ℤ)
  gamma : Option (Option ℚ)

/-- `get_lr_scheduler`: branches on the schedule name; the final default
branch subscripts `lr_sch_config['step_size']` and `config['gamma']`
(`KeyError` when absent), falls back to `LambdaLR(lambda _: 1)` when either
value is `None`, and otherwise builds `StepLR(step_size, gamma)`. -/
def get_lr_scheduler (config : Config) : Except String Scheduler :=
  let origLr := config.learning_rate
  if config.name = "multi_step" then
    .ok (.multiStepLR [2, 6, 12] (1 / 2))
  else if config.name = "cos_anneal" then
    .ok (.cosineAnnealingWarmRestarts 4 1 (origLr / 10))
  else if config.name = "cyclic" then
    .ok (.cyclicLR (origLr / 10) origLr 2 false)
  else
    match config.step_size with
    | none => .error "KeyError: step_size"
    | some stepSize =>
      match config.gamma with
      | none => .error "KeyError: gamma"
      | some gamma =>
        match stepSize, gamma with
        | some s, some g => .ok (.stepLR s g)
        | _, _ => .ok (.lambdaLR noopLrLambda)

/-! ## Accuracy metrics (`Accuracy`, lines 80-102) -/

namespace Accuracy

/-- The `1e-6` added to both metric denominators. -/
def eps : ℚ := 1 / 1000000

/-- The `hit_num` loop of `complete_match`: how many zipped pairs are equal
as whole sequences. -/
def countHitPairs (labels preds : List (List String)) : ℕ :=
  (labels.zip preds).countP fun lp => decide (lp.1 = lp.2)

/-- `Accuracy.complete_match`; `none` models the failed
`assert len(labels) == len(preds)`. -/
def complete_match (labels preds : List (List String)) : Option ℚ :=
  if labels.length = preds.length then
    some ((countHitPairs labels preds : ℚ) / ((labels.length : ℚ) + eps))
  else
    none

/-- One pair's contribution to `total_num` in `label_match`:
`max(len(label), len(pred))`. -/
def pairTotal (lp : List String × List String) : ℕ :=
  max lp.1.length lp.2.length

/-- One pair's contribution to `hit_num` in `label_match`: equal positions of
`zip(label[:min_len], pred[:min_len])`. -/
def pairHits (lp : List String × List String) : ℕ :=
  let minLen := min lp.1.length lp.2.length
  ((lp.1.take minLen).zip (lp.2.take minLen)).countP fun ab => decide (ab.1 = ab.2)

/-- `Accuracy.label_match`; `none` models the failed
`assert len(labels) == len(preds)`. -/
def label_match (labels preds : List (List String)) : Option ℚ :=
  if labels.length = preds.length then
    some ((((labels.zip preds).map pairHits).sum : ℚ) /
      ((((labels.zip preds).map pairTotal).sum : ℚ) + eps))
  else
    none

end Accuracy

/-- Per-pair hit count as claim C2 words it (the refinement side): the number
of positions `i` below the common-prefix length `min(len(label), len(pred))`
at which the two tokens are equal. -/
def claimPairHits (l p : List String) : ℕ :=
  ((List.range (min l.length p.length)).filter fun i => decide (l[i]? = p[i]?)).length

/-- The global ratio claim C2 describes: summed hits over summed
`max`-lengths, with the epsilon added to the denominator. -/
def claimLabelMatch (labels preds : List (List String)) : ℚ :=
  (((labels.zip preds).map fun lp => claimPairHits lp.1 lp.2).sum : ℕ) /
    ((((labels.zip preds).map fun lp => max lp.1.length lp.2.length).sum : ℕ) + Accuracy.eps)

/-! ## Checkpoint re-save (`resave_model`, lines 239-245) and the post-run
path derivation of `PlTrainer.fit` (lines 226-234) -/

/-- Python strings, as used for `state_dict` keys and file paths. -/
abbrev PyStr := List Char

/-- Python `s.split('.', maxsplit=1)`, restricted to what the source indexes:
`some (before, after)` splits at the first `'.'`; `none` when the string has
no dot, in which case the source's `[1]` subscript raises `IndexError`. -/
def splitFirstDot : PyStr → Option (PyStr × PyStr)
  | [] => none
  | c :: cs =>
    if c = '.' then some ([], cs)
    else (splitFirstDot cs).map fun pr => (c :: pr.1, pr.2)

/-- A checkpoint file's contents: its `state_dict` entries plus any other
top-level entries (`extras`). -/
structure Checkpoint (V : Type) where
  state_dict : List (PyStr × V)
  extras : List (PyStr × V)
deriving Repr

/-- The renaming loop of `resave_model`:
`state_dict[k.split('.', maxsplit=1)[1]] = v` for each entry, in order. -/
def renameStateDict {V : Type} : List (PyStr × V) → Except String (List (PyStr × V))
  | [] => .ok []
  | (k, v) :: rest =>
    match splitFirstDot k with
    | none => .error "IndexError: list index out of range"
    | some pr => (renameStateDict rest).map fun tail => (pr.2, v) :: tail

/-- `resave_model`: loads the checkpoint, renames every `state_dict` key by
dropping its first dot-delimited segment, and writes a file holding exactly
`{'state_dict': state_dict}`. The `Except` carries the `IndexError` raised
before anything is written when a key has no dot. -/
def resave_model {V : Type} (checkpoint : Checkpoint V) : Except String (Checkpoint V) :=
  (renameStateDict checkpoint.state_dict).map fun sd => { state_dict := sd, extras := [] }

/-- Python `s.rsplit('.', maxsplit=1)`, restricted to what the source builds:
`some (before, after)` splits at the last `'.'`; `none` when there is no dot. -/
def rsplitLastDot (s : PyStr) : Option (PyStr × PyStr) :=
  (splitFirstDot s.reverse).map fun pr => (pr.2.reverse, pr.1.reverse)

/-- The output-path derivation in `PlTrainer.fit`:
`fields = best_model_path.rsplit('.', maxsplit=1); fields[0] += '-model';
output_model_fp = '.'.join(fields)`. -/
def deriveModelPath (bestModelPath : PyStr) : PyStr :=
  match rsplitLastDot bestModelPath with
  | none => bestModelPath ++ ("-model").toList
  | some pr => pr.1 ++ ("-model").toList ++ '.' :: pr.2

/-- The post-run tail of `PlTrainer.fit`: derive the output path from the
checkpoint callback's `best_model_path`, re-save the best checkpoint at that
path, and record the path as `self.saved_model_file`. Returns the recorded
path together with the checkpoint contents written there. -/
def fitPostProcess {V : Type} (bestModelPath : PyStr) (checkpoint : Checkpoint V) :
    Except String (PyStr × Checkpoint V) :=
  (resave_model checkpoint).map fun saved => (deriveModelPath bestModelPath, saved)

/-! ## Helper lemmas -/

theorem zip_take_take {α β : Type} (l : List α) (p : List β) (n : ℕ) :
    (l.take n).zip (p.take n) = (l.zip p).take n := by
  induction l generalizing p n with
  | nil => simp
  | cons a l ih =>
    cases p with
    | nil => simp
    | cons b p =>
      cases n with
      | zero => simp
      | succ n => simp [ih]

theorem countP_zip_eq_claimPairHits (l p : List String) :
    (l.zip p).countP (fun ab => decide (ab.1 = ab.2)) = claimPairHits l p := by
  induction l generalizing p with
  | nil => simp [claimPairHits]
  | cons a l ih =>
    cases p with
    | nil => simp [claimPairHits]
    | cons b p =>
      rw [List.zip_cons_cons, List.countP_cons]
      simp only [claimPairHits, List.length_cons, Nat.succ_min_succ,
        List.range_succ_eq_map, List.filter_cons, List.filter_map,
        Function.comp_def, List.getElem?_cons_succ, List.getElem?_cons_zero]
      by_cases hab : a = b
      · simp [hab, ih p, claimPairHits]
      · simp [hab, ih p, claimPairHits]

theorem pairHits_eq_claimPairHits (lp : List String × List String) :
    Accuracy.pairHits lp = claimPairHits lp.1 lp.2 := by
  obtain ⟨l, p⟩ := lp
  have h1 : (l.take (min l.length p.length)).zip (p.take (min l.length p.length))
      = (l.zip p).take (min l.length p.length) := zip_take_take l p _
  have h2 : (l.zip p).take (min l.length p.length) = l.zip p :=
    List.take_of_length_le (by rw [List.length_zip])
  show ((l.take (min l.length p.length)).zip (p.take (min l.length p.length))).countP _ = _
  rw [h1, h2]
  exact countP_zip_eq_claimPairHits l p

theorem splitFirstDot_eq_none_iff (s : PyStr) : splitFirstDot s = none ↔ '.' ∉ s := by
  induction s with
  | nil => simp [splitFirstDot]
  | cons c cs ih =>
    by_cases hc : c = '.'
    · simp [splitFirstDot, hc]
    · simp [splitFirstDot, hc, ih, Ne.symm hc]

theorem splitFirstDot_append (a b : PyStr) (ha : '.' ∉ a) :
    splitFirstDot (a ++ '.' :: b) = some (a, b) := by
  induction a with
  | nil => simp [splitFirstDot]
  | cons c cs ih =>
    rw [List.mem_cons, not_or] at ha
    have hc : ¬c = '.' := fun h => ha.1 h.symm
    simp [splitFirstDot, hc, ih ha.2]

theorem renameStateDict_model_keys {V : Type} (l : List (PyStr × V))
    (h : ∀ kv ∈ l, ∃ rest : PyStr, kv.1 = ("model.").toList ++ rest) :
    renameStateDict l
      = .ok (l.map fun kv => (kv.1.drop (("model.").toList.length), kv.2)) := by
  induction l with
  | nil => simp [renameStateDict]
  | cons kv rest ih =>
    obtain ⟨k, v⟩ := kv
    obtain ⟨r, hr⟩ := h (k, v) (List.mem_cons_self _ _)
    have hk : k = ("model.").toList ++ r := hr
    have hsplit : splitFirstDot k = some (("model").toList, r) := by
      rw [hk]
      exact splitFirstDot_append ("model").toList r (by decide)
    have hdrop : k.drop (("model.").toList.length) = r := by
      rw [hk]
      exact List.drop_left ("model.").toList r
    have hdrop6 : List.drop 6 k = r := hdrop
    simp only [renameStateDict, hsplit, ih fun kv hkv => h kv (List.mem_cons_of_mem _ hkv)]
    simp [Except.map, hdrop, hdrop6]

theorem renameStateDict_error {V : Type} (l : List (PyStr × V))
    (h : ∃ kv ∈ l, '.' ∉ kv.1) :
    renameStateDict l = .error "IndexError: list index out of range" := by
  induction l with
  | nil =>
    obtain ⟨kv, hmem, _⟩ := h
    exact absurd hmem (List.not_mem_nil kv)
  | cons kv rest ih =>
    obtain ⟨k, v⟩ := kv
    obtain ⟨kv', hmem, hdot⟩ := h
    rcases List.mem_cons.1 hmem with heq | hmem'
    · subst heq
      simp only [renameStateDict, (splitFirstDot_eq_none_iff _).2 hdot]
    · cases hsplit : splitFirstDot k with
      | none => simp only [renameStateDict, hsplit]
      | some pr =>
        simp only [renameStateDict, hsplit, ih ⟨kv', hmem', hdot⟩]
        rfl

theorem rsplitLastDot_append (stem ext : PyStr) (hext : '.' ∉ ext) :
    rsplitLastDot (stem ++ '.' :: ext) = some (stem, ext) := by
  unfold rsplitLastDot
  have h : (stem ++ '.' :: ext).reverse = ext.reverse ++ '.' :: stem.reverse := by
    simp [List.reverse_append, List.reverse_cons, List.append_assoc]
  rw [h, splitFirstDot_append _ _ (by simpa using hext)]
  simp

/-! ## Claim theorems -/

/-- **C1** (counterexample). A configuration with the unrecognized scheduler
name `"foo"` and no `step_size` key at all does not get the no-op schedule:
`get_lr_scheduler` surfaces a `KeyError` from `lr_sch_config['step_size']`,
contradicting the claim that no error reaches the caller. -/
theorem get_lr_scheduler_missing_step_size_key_raises :
    get_lr_scheduler
        { learning_rate := 1 / 10, name := "foo", step_size := none, gamma := none }
      = .error "KeyError: step_size" := rfl

/-- **C1** (amended). For a configuration whose scheduler name is unrecognized,
the no-op fallback (`LambdaLR` with multiplier constantly `1`) is returned,
with no error surfaced, exactly when the `step_size` and `gamma` keys are both
present and at least one of their values is `None`; a key that is absent
outright instead raises a `KeyError`. -/
theorem get_lr_scheduler_null_params_noop (c : Config)
    (hname : c.name ∉ (["multi_step", "cos_anneal", "cyclic"] : List String))
    (hstep : c.step_size ≠ none) (hgamma : c.gamma ≠ none)
    (hnull : c.step_size = some none ∨ c.gamma = some none) :
    get_lr_scheduler c = .ok (.lambdaLR noopLrLambda) ∧ ∀ n : ℕ, noopLrLambda n = 1 := by
  refine ⟨?_, fun n => rfl⟩
  have hn1 : ¬c.name = "multi_step" := fun h => hname (by rw [h]; decide)
  have hn2 : ¬c.name = "cos_anneal" := fun h => hname (by rw [h]; decide)
  have hn3 : ¬c.name = "cyclic" := fun h => hname (by rw [h]; decide)
  cases hsv : c.step_size with
  | none => exact absurd hsv hstep
  | some sv =>
    cases hgv : c.gamma with
    | none => exact absurd hgv hgamma
    | some gv =>
      rcases hnull with hn | hn
      · obtain rfl : sv = none := by rw [hsv] at hn; injection hn
        cases gv <;> simp [get_lr_scheduler, hn1, hn2, hn3, hsv, hgv]
      · obtain rfl : gv = none := by rw [hgv] at hn; injection hn
        cases sv <;> simp [get_lr_scheduler, hn1, hn2, hn3, hsv, hgv]

/-- **C1** (witness for the amended claim): an unrecognized name with
`step_size` present but `None` yields the no-op schedule. -/
theorem get_lr_scheduler_null_params_noop_witness :
    get_lr_scheduler
        { learning_rate := 1 / 10, name := "foo",
          step_size := some none, gamma := some (some (1 / 2)) }
      = .ok (.lambdaLR noopLrLambda) :=
  (get_lr_scheduler_null_params_noop _ (by decide) (by decide) (by decide)
    (Or.inl rfl)).1

/-- **C4**. `get_optimizer` selects the update rule from `name.lower()` (so
`"ADAM"` and `"adam"` both select Adam), and any name whose lowercase form is
outside the recognized table does not raise: it sets the warning and
substitutes the Adam rule. -/
theorem get_optimizer_case_insensitive_fallback :
    (∀ a b : String, pyLower a = pyLower b → get_optimizer a = get_optimizer b)
    ∧ get_optimizer "ADAM" = ⟨.adam, false⟩
    ∧ get_optimizer "adam" = ⟨.adam, false⟩
    ∧ (∀ name : String,
        pyLower name ∉ (["adam", "adamw", "sgd", "adagrad", "rmsprop"] : List String) →
        get_optimizer name = ⟨.adam, true⟩)
    ∧ get_optimizer "foo" = ⟨.adam, true⟩ := by
  refine ⟨fun a b h => by simp [get_optimizer, h], rfl, rfl, ?_, rfl⟩
  intro name h
  simp only [List.mem_cons, List.not_mem_nil, or_false, not_or] at h
  obtain ⟨h1, h2, h3, h4, h5⟩ := h
  simp [get_optimizer, OPTIMIZERS, List.lookup, beq_eq_false_iff_ne.2 h1,
    beq_eq_false_iff_ne.2 h2, beq_eq_false_iff_ne.2 h3, beq_eq_false_iff_ne.2 h4,
    beq_eq_false_iff_ne.2 h5]

/-- **C6**. Both metrics hit the `assert len(labels) == len(preds)` (modelled
as `none`) exactly when the two lists have different lengths; equal-length
inputs never trip the assertion. -/
theorem accuracy_assert_iff_length_mismatch (labels preds : List (List String)) :
    (Accuracy.complete_match labels preds = none ↔ labels.length ≠ preds.length)
    ∧ (Accuracy.label_match labels preds = none ↔ labels.length ≠ preds.length) := by
  constructor
  · unfold Accuracy.complete_match
    split <;> simp_all
  · unfold Accuracy.label_match
    split <;> simp_all

/-- **C7**. The name `"multi_step"` always yields `MultiStepLR` with
milestones `[2, 6, 12]` and gamma `0.5`, whatever the other fields hold;
`"cos_anneal"` and `"cyclic"` likewise take their own branches; any
recognized name ignores `step_size`/`gamma` entirely (two configurations
agreeing on name and learning rate agree on the result); and a concrete
`multi_step` configuration with generic parameters set still yields the
milestone schedule. -/
theorem get_lr_scheduler_branch_order :
    (∀ c : Config, c.name = "multi_step" →
        get_lr_scheduler c = .ok (.multiStepLR [2, 6, 12] (1 / 2)))
    ∧ (∀ c : Config, c.name = "cos_anneal" →
        get_lr_scheduler c = .ok (.cosineAnnealingWarmRestarts 4 1 (c.learning_rate / 10)))
    ∧ (∀ c : Config, c.name = "cyclic" →
        get_lr_scheduler c = .ok (.cyclicLR (c.learning_rate / 10) c.learning_rate 2 false))
    ∧ (∀ c₁ c₂ : Config, c₁.name = c₂.name → c₁.learning_rate = c₂.learning_rate →
        c₁.name ∈ (["multi_step", "cos_anneal", "cyclic"] : List String) →
        get_lr_scheduler c₁ = get_lr_scheduler c₂)
    ∧ get_lr_scheduler
        { learning_rate := 1 / 10, name := "multi_step",
          step_size := some (some 99), gamma := some (some (9 / 10)) }
      = .ok (.multiStepLR [2, 6, 12] (1 / 2)) := by
  have h1 : ∀ c : Config, c.name = "multi_step" →
      get_lr_scheduler c = .ok (.multiStepLR [2, 6, 12] (1 / 2)) := by
    intro c h
    simp [get_lr_scheduler, h]
  have h2 : ∀ c : Config, c.name = "cos_anneal" →
      get_lr_scheduler c = .ok (.cosineAnnealingWarmRestarts 4 1 (c.learning_rate / 10)) := by
    intro c h
    simp [get_lr_scheduler, h]
  have h3 : ∀ c : Config, c.name = "cyclic" →
      get_lr_scheduler c = .ok (.cyclicLR (c.learning_rate / 10) c.learning_rate 2 false) := by
    intro c h
    simp [get_lr_scheduler, h]
  refine ⟨h1, h2, h3, ?_, h1 _ rfl⟩
  intro c₁ c₂ hn hlr hmem
  have hmem' : c₁.name = "multi_step" ∨ c₁.name = "cos_anneal" ∨ c₁.name = "cyclic" := by
    simpa using hmem
  rcases hmem' with h | h | h
  · rw [h1 c₁ h, h1 c₂ (hn ▸ h)]
  · rw [h2 c₁ h, h2 c₂ (hn ▸ h), hlr]
  · rw [h3 c₁ h, h3 c₂ (hn ▸ h), hlr]

/-- **C10**. On empty inputs both metrics return `0` rather than failing, and
for every input the denominators (`total + 1e-6`) are strictly positive, so
the division is never a division by zero. -/
theorem accuracy_empty_inputs_and_total_division :
    Accuracy.complete_match ([] : List (List String)) [] = some 0
    ∧ Accuracy.label_match ([] : List (List String)) [] = some 0
    ∧ (∀ labels preds : List (List String),
        (0 : ℚ) < (labels.length : ℚ) + Accuracy.eps
        ∧ (0 : ℚ) < (((labels.zip preds).map Accuracy.pairTotal).sum : ℚ) + Accuracy.eps) := by
  refine ⟨?_, ?_, fun labels preds =>
    ⟨add_pos_of_nonneg_of_pos (Nat.cast_nonneg _) (by norm_num [Accuracy.eps]),
     add_pos_of_nonneg_of_pos (Nat.cast_nonneg _) (by norm_num [Accuracy.eps])⟩⟩
  · norm_num [Accuracy.complete_match, Accuracy.countHitPairs]
  · norm_num [Accuracy.label_match]

/-- **C2**. `label_match` returns the global ratio `hit / (total + eps)`
where, over all zipped pairs, each pair contributes its longer length to the
total and the number of agreeing positions of the common prefix
(`claimPairHits`) to the hits; on the spec's example the value is
`1 / (3 + eps)`, which is within epsilon of `1/3`. -/
theorem label_match_global_ratio :
    (∀ labels preds : List (List String), labels.length = preds.length →
      Accuracy.label_match labels preds = some (claimLabelMatch labels preds))
    ∧ Accuracy.label_match [["a", "b", "c"]] [["a", "x"]] = some (1 / (3 + Accuracy.eps))
    ∧ |1 / (3 + Accuracy.eps) - 1 / 3| < Accuracy.eps := by
  refine ⟨?_, rfl, by norm_num [Accuracy.eps, abs]⟩
  intro labels preds hlen
  have hmap : (labels.zip preds).map Accuracy.pairHits
      = (labels.zip preds).map fun lp => claimPairHits lp.1 lp.2 :=
    List.map_congr_left fun lp _ => pairHits_eq_claimPairHits lp
  simp only [Accuracy.label_match, if_pos hlen, claimLabelMatch, hmap]
  rfl

/-- **C3**. For equal-length, non-empty inputs `complete_match` returns
`hit / (n + eps)` with `hit` the number of exactly equal pairs and `n` the
number of pairs; the value lies in `[0, 1]`, is within epsilon of `1` when
every pair is identical, and is `0` when no pair is identical. -/
theorem complete_match_bounds (labels preds : List (List String))
    (hlen : labels.length = preds.length) (hne : labels ≠ []) :
    Accuracy.complete_match labels preds
      = some ((Accuracy.countHitPairs labels preds : ℚ) / ((labels.length : ℚ) + Accuracy.eps))
    ∧ 0 ≤ (Accuracy.countHitPairs labels preds : ℚ) / ((labels.length : ℚ) + Accuracy.eps)
    ∧ (Accuracy.countHitPairs labels preds : ℚ) / ((labels.length : ℚ) + Accuracy.eps) ≤ 1
    ∧ ((∀ lp ∈ labels.zip preds, lp.1 = lp.2) →
        |(Accuracy.countHitPairs labels preds : ℚ) / ((labels.length : ℚ) + Accuracy.eps) - 1|
          ≤ Accuracy.eps)
    ∧ ((∀ lp ∈ labels.zip preds, lp.1 ≠ lp.2) →
        (Accuracy.countHitPairs labels preds : ℚ) / ((labels.length : ℚ) + Accuracy.eps) = 0) := by
  have heps : (0 : ℚ) < Accuracy.eps := by norm_num [Accuracy.eps]
  have hden : (0 : ℚ) < (labels.length : ℚ) + Accuracy.eps :=
    add_pos_of_nonneg_of_pos (Nat.cast_nonneg _) heps
  have hzip : (labels.zip preds).length = labels.length := by
    rw [List.length_zip]
    omega
  have hn1 : (1 : ℚ) ≤ (labels.length : ℚ) := by
    have h0 : 1 ≤ labels.length :=
      Nat.pos_of_ne_zero fun h0 => hne (List.length_eq_zero.1 h0)
    exact_mod_cast h0
  refine ⟨by simp only [Accuracy.complete_match, if_pos hlen], ?_, ?_, ?_, ?_⟩
  · exact div_nonneg (Nat.cast_nonneg _) hden.le
  · rw [div_le_one hden]
    have hcount : Accuracy.countHitPairs labels preds ≤ labels.length := by
      unfold Accuracy.countHitPairs
      calc List.countP (fun lp => decide (lp.1 = lp.2)) (labels.zip preds)
          ≤ (labels.zip preds).length := List.countP_le_length _
        _ = labels.length := hzip
    calc (Accuracy.countHitPairs labels preds : ℚ) ≤ (labels.length : ℚ) := by
          exact_mod_cast hcount
      _ ≤ (labels.length : ℚ) + Accuracy.eps := le_add_of_nonneg_right heps.le
  · intro hall
    have hc : Accuracy.countHitPairs labels preds = labels.length := by
      unfold Accuracy.countHitPairs
      rw [List.countP_eq_length.2 fun lp hlp => decide_eq_true (hall lp hlp), hzip]
    rw [hc]
    have key : (labels.length : ℚ) / ((labels.length : ℚ) + Accuracy.eps) - 1
        = -(Accuracy.eps / ((labels.length : ℚ) + Accuracy.eps)) := by
      field_simp
    rw [key, abs_neg, abs_of_nonneg (div_nonneg heps.le hden.le), div_le_iff₀ hden]
    calc Accuracy.eps = Accuracy.eps * 1 := (mul_one _).symm
      _ ≤ Accuracy.eps * ((labels.length : ℚ) + Accuracy.eps) := by
          refine mul_le_mul_of_nonneg_left ?_ heps.le
          calc (1 : ℚ) ≤ (labels.length : ℚ) := hn1
            _ ≤ (labels.length : ℚ) + Accuracy.eps := le_add_of_nonneg_right heps.le
  · intro hnone
    have hc : Accuracy.countHitPairs labels preds = 0 := by
      unfold Accuracy.countHitPairs
      exact List.countP_eq_zero.2 fun lp hlp => by simpa using hnone lp hlp
    rw [hc]
    norm_num

/-- **C3** (witness): two identical singleton pairs give `1 / (1 + eps)`,
within epsilon of `1`. -/
theorem complete_match_bounds_witness :
    Accuracy.complete_match [["a", "b"]] [["a", "b"]] = some (1 / (1 + Accuracy.eps))
    ∧ |1 / (1 + Accuracy.eps) - 1| ≤ Accuracy.eps := by
  have h := complete_match_bounds [["a", "b"]] [["a", "b"]] rfl (by decide)
  exact ⟨h.1, h.2.2.2.1 (by decide)⟩

/-- **C5**. If every `state_dict` key has the form `"model.<rest>"`, the
re-saved checkpoint holds exactly the single `state_dict` entry, whose keys
are the original keys with the `"model."` prefix removed and whose values are
unchanged. -/
theorem resave_model_strips_model_segment {V : Type} (cp : Checkpoint V)
    (h : ∀ kv ∈ cp.state_dict, ∃ rest : PyStr, kv.1 = ("model.").toList ++ rest) :
    resave_model cp
      = .ok { state_dict :=
                cp.state_dict.map fun kv => (kv.1.drop (("model.").toList.length), kv.2),
              extras := [] } := by
  unfold resave_model
  rw [renameStateDict_model_keys cp.state_dict h]
  rfl

/-- The checkpoint used to witness C5: two `model.`-prefixed parameters and a
non-`state_dict` top-level entry. -/
def cpModelExample : Checkpoint ℕ :=
  { state_dict := [(("model.fc.weight").toList, 1), (("model.fc.bias").toList, 2)],
    extras := [(("epoch").toList, 7)] }

/-- **C5** (witness): the concrete checkpoint re-saves to exactly
`state_dict` with the prefix stripped and values intact. -/
theorem resave_model_strips_model_segment_witness :
    resave_model cpModelExample
      = .ok { state_dict := [(("fc.weight").toList, 1), (("fc.bias").toList, 2)],
              extras := [] } := by
  have h := resave_model_strips_model_segment cpModelExample ?_
  · exact h
  · intro kv hkv
    rcases List.mem_cons.1 hkv with rfl | hkv'
    · exact ⟨("fc.weight").toList, rfl⟩
    · rcases List.mem_cons.1 hkv' with rfl | hkv''
      · exact ⟨("fc.bias").toList, rfl⟩
      · exact absurd hkv'' (List.not_mem_nil _)

/-- **C8**. For a best-checkpoint path `stem ++ "." ++ ext` (with no dot in
the extension), `PlTrainer.fit`'s post-run step records
`stem ++ "-model." ++ ext` as `saved_model_file` and produces the re-saved
checkpoint at exactly that path. -/
theorem fit_saved_model_path {V : Type} (stem ext : PyStr) (cp saved : Checkpoint V)
    (hext : '.' ∉ ext) (hok : resave_model cp = .ok saved) :
    fitPostProcess (stem ++ '.' :: ext) cp
      = .ok (stem ++ ("-model").toList ++ '.' :: ext, saved) := by
  unfold fitPostProcess
  rw [hok]
  have hpath : deriveModelPath (stem ++ '.' :: ext)
      = stem ++ ("-model").toList ++ '.' :: ext := by
    unfold deriveModelPath
    rw [rsplitLastDot_append stem ext hext]
  simp [Except.map, hpath]

/-- The checkpoint used to witness C8. -/
def cpFitExample : Checkpoint ℕ :=
  { state_dict := [(("model.linear.weight").toList, 5)], extras := [] }

/-- **C8** (witness): a concrete framework checkpoint path gets its `-model`
suffix inserted before the `.ckpt` extension, with the renamed checkpoint
written there. -/
theorem fit_saved_model_path_witness :
    fitPostProcess (("PlTrainer-epoch=003.ckpt").toList) cpFitExample
      = .ok (("PlTrainer-epoch=003-model.ckpt").toList,
             { state_dict := [(("linear.weight").toList, 5)], extras := [] }) :=
  fit_saved_model_path (("PlTrainer-epoch=003").toList) (("ckpt").toList)
    cpFitExample { state_dict := [(("linear.weight").toList, 5)], extras := [] }
    (by decide) rfl

/-- **C9**. `resave_model` requires every `state_dict` key to contain a dot:
as soon as some key has none, the renaming raises `IndexError` and no output
checkpoint is produced. -/
theorem resave_model_requires_dotted_keys {V : Type} (cp : Checkpoint V)
    (h : ∃ kv ∈ cp.state_dict, '.' ∉ kv.1) :
    resave_model cp = .error "IndexError: list index out of range" := by
  unfold resave_model
  rw [renameStateDict_error cp.state_dict h]
  rfl

/-- The checkpoint used to witness C9: one key without any dot. -/
def cpNoDotExample : Checkpoint ℕ :=
  { state_dict := [(("weight").toList, 3)], extras := [] }

/-- **C9** (witness): a `state_dict` whose single key `"weight"` has no dot
makes `resave_model` fail with the `IndexError`. -/
theorem resave_model_requires_dotted_keys_witness :
    resave_model cpNoDotExample = .error "IndexError: list index out of range" :=
  resave_model_requires_dotted_keys cpNoDotExample
    ⟨(("weight").toList, 3), List.mem_cons_self _ _, by decide⟩

end CnocrTrainer
